import Mathlib

/-!
Verification development for the proofpay escrow/payment contracts.

Two contract variants are embedded, each in its own namespace:

* `SP` — the social-payment contract in `src/src/contract.rs`
  (counter-assigned `u64` payment ids, direct payments / payment requests /
  help requests, submit-proof / approve / reject / cancel flow).
* `CW` — the `contracts-cosmwasm` variant in
  `src/packages/contracts-cosmwasm/src/contract.rs`
  (string payment ids derived from sender/recipient/amount/timestamp,
  pending-balance bookkeeping, complete / dispute / cancel flow).

Storage maps (`cw_storage_plus::Map`) are embedded as association lists with
replace-on-save semantics; `u64` / `Uint128` quantities are embedded as `Nat`
(no arithmetic in the contracts comes near the respective moduli on the
inputs exercised); fallible entry points return `Except`.  A successful call
returns the new storage together with the list of bank messages the response
carries, so "a transfer is issued" is visible as a `bankSend` element.
-/

deriving instance DecidableEq for Except

/-- Lookup in an association list (first binding wins), embedding
`cw_storage_plus::Map::load / may_load`. -/
def findKV [DecidableEq α] : List (α × β) → α → Option β
  | [], _ => Option.none
  | (k', v) :: t, k => if k = k' then some v else findKV t k

/-- Save into an association list: replace the existing binding for the key,
or append a fresh one.  Embeds `cw_storage_plus::Map::save`. -/
def saveKV [DecidableEq α] : List (α × β) → α → β → List (α × β)
  | [], k, v => [(k, v)]
  | (k', v') :: t, k, v =>
    if k = k' then (k, v) :: t else (k', v') :: saveKV t k v

/-- Remove a key's binding, embedding `cw_storage_plus::Map::remove`. -/
def removeKV [DecidableEq α] : List (α × β) → α → List (α × β)
  | [], _ => []
  | (k', v') :: t, k => if k = k' then t else (k', v') :: removeKV t k

namespace SP

/-- `cosmwasm_std::Coin`: a denomination and a `Uint128` quantity. -/
structure Coin where
  denom : String
  amount : Nat
deriving DecidableEq, Repr

/-- A bank message carried by a contract response
(`CosmosMsg::Bank(BankMsg::Send { .. })`). -/
inductive CosmosMsg where
  | bankSend (to_address : String) (amount : List Coin)
deriving DecidableEq, Repr

/-- `state.rs` `User`. -/
structure User where
  wallet_address : String
  username : String
  display_name : String
  profile_picture : Option String
  created_at : Nat
  updated_at : Nat
deriving DecidableEq, Repr

/-- `state.rs` `Friendship`. -/
structure Friendship where
  user1 : String
  user2 : String
  created_at : Nat
deriving DecidableEq, Repr

/-- `state.rs` `FriendRequestStatus`. -/
inductive FriendRequestStatus where
  | pending
  | accepted
  | declined
deriving DecidableEq, Repr

/-- `state.rs` `FriendRequest`. -/
structure FriendRequest where
  from_username : String
  to_username : String
  status : FriendRequestStatus
  created_at : Nat
  updated_at : Nat
deriving DecidableEq, Repr

/-- `state.rs` `PaymentType` as used by `contract.rs`. -/
inductive PaymentType where
  | directPayment
  | paymentRequest
  | helpRequest
deriving DecidableEq, Repr

/-- `state.rs` `PaymentStatus`. -/
inductive PaymentStatus where
  | pending
  | proofSubmitted
  | completed
  | rejected
  | cancelled
deriving DecidableEq, Repr

/-- `state.rs` `ProofType`. -/
inductive ProofType where
  | none
  | photo
  | document
  | location
  | zkTLS
  | manual
  | soft
  | hybrid
deriving DecidableEq, Repr

/-- `state.rs` `Payment`. -/
structure Payment where
  id : Nat
  from_username : String
  to_username : String
  amount : Coin
  description : String
  payment_type : PaymentType
  proof_type : ProofType
  proof_data : Option String
  status : PaymentStatus
  created_at : Nat
  updated_at : Nat
deriving DecidableEq, Repr

/-- `state.rs` `State` (the `next_task_id` field of one source revision is
unused by `contract.rs` and omitted). -/
structure StateRec where
  owner : String
  next_payment_id : Nat
deriving DecidableEq, Repr

/-- The whole persisted storage of the contract: every `Item`/`Map` declared
in `state.rs` that `contract.rs` writes. -/
structure St where
  state : StateRec
  usersByUsername : List (String × User)
  usersByWallet : List (String × String)
  friendships : List ((String × String) × Friendship)
  friendRequests : List ((String × String) × FriendRequest)
  payments : List (Nat × Payment)
  userPayments : List ((String × Nat) × Bool)
deriving DecidableEq, Repr

/-- `error.rs` `ContractError` (constructors reachable from the embedded
entry points). -/
inductive Err where
  | std
  | usernameAlreadyTaken
  | userNotFound
  | invalidUsername
  | walletAlreadyRegistered
  | userNotRegistered
  | cannotAddSelf
  | friendRequestAlreadyExists
  | friendRequestNotFound
  | alreadyFriends
  | notFriends
  | paymentNotFound
  | paymentNotAuthorized
  | paymentAlreadyCompleted
  | paymentAlreadyCancelled
  | cannotPaySelf
  | insufficientFunds
  | invalidPaymentAmount
  | noProofRequired
  | proofRequired
  | onlySenderCanCancel
deriving DecidableEq, Repr

/-- `Env`: the block time in seconds, the only part of `Env` the contract
reads. -/
structure Env where
  blockTime : Nat
deriving DecidableEq, Repr

/-- `MessageInfo`: the authenticated sender address and the funds attached to
the call. -/
structure Info where
  sender : String
  funds : List Coin
deriving DecidableEq, Repr

/-- The result of an execute entry point: a typed error, or the new storage
plus the bank messages of the response. -/
abbrev ExecResult := Except Err (St × List CosmosMsg)

/-- `instantiate`: owner is the sender, payment counter starts at 1, all maps
empty. -/
def instantiate (sender : String) : St :=
  ⟨⟨sender, 1⟩, [], [], [], [], [], []⟩

/-- `validate_username`: length between 3 and 20, alphanumeric or
underscore. -/
def validate_username (username : String) : Except Err Unit :=
  if username.length < 3 ∨ 20 < username.length then .error .invalidUsername
  else if ¬ (username.data.all fun c => c.isAlphanum || c == '_') then
    .error .invalidUsername
  else .ok ()

/-- `get_username_from_wallet`. -/
def get_username_from_wallet (s : St) (wallet : String) : Except Err String :=
  match findKV s.usersByWallet wallet with
  | some u => .ok u
  | Option.none => .error .userNotRegistered

/-- `execute_register_user`. -/
def execute_register_user (s : St) (env : Env) (info : Info)
    (username display_name : String) : ExecResult :=
  match validate_username username with
  | .error e => .error e
  | .ok _ =>
    if (findKV s.usersByUsername username).isSome then
      .error .usernameAlreadyTaken
    else if (findKV s.usersByWallet info.sender).isSome then
      .error .walletAlreadyRegistered
    else
      let user : User :=
        ⟨info.sender, username, display_name, Option.none,
          env.blockTime, env.blockTime⟩
      .ok ({ s with
              usersByUsername := saveKV s.usersByUsername username user,
              usersByWallet := saveKV s.usersByWallet info.sender username },
           [])

/-- `execute_update_user_profile`. -/
def execute_update_user_profile (s : St) (env : Env) (info : Info)
    (display_name profile_picture : Option String) : ExecResult :=
  match get_username_from_wallet s info.sender with
  | .error e => .error e
  | .ok username =>
    match findKV s.usersByUsername username with
    | Option.none => .error .userNotFound
    | some user =>
      let user' : User :=
        { user with
            display_name := display_name.getD user.display_name,
            profile_picture :=
              match profile_picture with
              | some p => some p
              | Option.none => user.profile_picture,
            updated_at := env.blockTime }
      .ok ({ s with
              usersByUsername := saveKV s.usersByUsername username user' },
           [])

/-- `execute_send_friend_request`. -/
def execute_send_friend_request (s : St) (env : Env) (info : Info)
    (to_username : String) : ExecResult :=
  match get_username_from_wallet s info.sender with
  | .error e => .error e
  | .ok from_username =>
    if from_username = to_username then .error .cannotAddSelf
    else if (findKV s.usersByUsername to_username).isNone then
      .error .userNotFound
    else if (findKV s.friendships (from_username, to_username)).isSome ∨
        (findKV s.friendships (to_username, from_username)).isSome then
      .error .alreadyFriends
    else if (findKV s.friendRequests (from_username, to_username)).isSome then
      .error .friendRequestAlreadyExists
    else
      let req : FriendRequest :=
        ⟨from_username, to_username, .pending, env.blockTime, env.blockTime⟩
      .ok ({ s with
              friendRequests :=
                saveKV s.friendRequests (from_username, to_username) req },
           [])

/-- `execute_accept_friend_request`. -/
def execute_accept_friend_request (s : St) (env : Env) (info : Info)
    (from_username : String) : ExecResult :=
  match get_username_from_wallet s info.sender with
  | .error e => .error e
  | .ok to_username =>
    match findKV s.friendRequests (from_username, to_username) with
    | Option.none => .error .friendRequestNotFound
    | some req =>
      let req' : FriendRequest :=
        { req with status := .accepted, updated_at := env.blockTime }
      let friendship : Friendship :=
        ⟨from_username, to_username, env.blockTime⟩
      .ok ({ s with
              friendRequests :=
                saveKV s.friendRequests (from_username, to_username) req',
              friendships :=
                saveKV
                  (saveKV s.friendships (from_username, to_username)
                    friendship)
                  (to_username, from_username) friendship },
           [])

/-- `execute_decline_friend_request`. -/
def execute_decline_friend_request (s : St) (env : Env) (info : Info)
    (from_username : String) : ExecResult :=
  match get_username_from_wallet s info.sender with
  | .error e => .error e
  | .ok to_username =>
    match findKV s.friendRequests (from_username, to_username) with
    | Option.none => .error .friendRequestNotFound
    | some req =>
      let req' : FriendRequest :=
        { req with status := .declined, updated_at := env.blockTime }
      .ok ({ s with
              friendRequests :=
                saveKV s.friendRequests (from_username, to_username) req' },
           [])

/-- `execute_remove_friend` (the source ignores `Env`). -/
def execute_remove_friend (s : St) (_env : Env) (info : Info)
    (friend_username : String) : ExecResult :=
  match get_username_from_wallet s info.sender with
  | .error e => .error e
  | .ok username =>
    if (findKV s.friendships (username, friend_username)).isNone then
      .error .notFriends
    else
      .ok ({ s with
              friendships :=
                removeKV (removeKV s.friendships (username, friend_username))
                  (friend_username, username) },
           [])

/-- The amount of the attached coin whose denom matches, or zero
(`info.funds.iter().find(..).map(..).unwrap_or_default()`). -/
def sentAmount (funds : List Coin) (denom : String) : Nat :=
  ((funds.find? fun c => c.denom == denom).map Coin.amount).getD 0

/-- `execute_send_direct_payment`. -/
def execute_send_direct_payment (s : St) (env : Env) (info : Info)
    (to_username : String) (amount : Coin) (description : String)
    (proof_type : ProofType) : ExecResult :=
  match get_username_from_wallet s info.sender with
  | .error e => .error e
  | .ok from_username =>
    if from_username = to_username then .error .cannotPaySelf
    else
      match findKV s.usersByUsername to_username with
      | Option.none => .error .userNotFound
      | some recipient =>
        if amount.amount = 0 then .error .invalidPaymentAmount
        else if sentAmount info.funds amount.denom < amount.amount then
          .error .insufficientFunds
        else
          let payment_id := s.state.next_payment_id
          let payment : Payment :=
            { id := payment_id,
              from_username := from_username,
              to_username := to_username,
              amount := amount,
              description := description,
              payment_type := .directPayment,
              proof_type := proof_type,
              proof_data := Option.none,
              status :=
                match proof_type with
                | .none => .completed
                | _ => .pending,
              created_at := env.blockTime,
              updated_at := env.blockTime }
          let s' : St :=
            { s with
                state := { s.state with next_payment_id := payment_id + 1 },
                payments := saveKV s.payments payment_id payment,
                userPayments :=
                  saveKV
                    (saveKV s.userPayments (from_username, payment_id) true)
                    (to_username, payment_id) true }
          let msgs : List CosmosMsg :=
            match proof_type with
            | .none =>
              [.bankSend recipient.wallet_address [payment.amount]]
            | _ => []
          .ok (s', msgs)

/-- `execute_create_payment_request` (note: no zero-amount and no attached-
funds check in the source). -/
def execute_create_payment_request (s : St) (env : Env) (info : Info)
    (to_username : String) (amount : Coin) (description : String)
    (proof_type : ProofType) : ExecResult :=
  match get_username_from_wallet s info.sender with
  | .error e => .error e
  | .ok from_username =>
    if from_username = to_username then .error .cannotPaySelf
    else if (findKV s.usersByUsername to_username).isNone then
      .error .userNotFound
    else
      let payment_id := s.state.next_payment_id
      let payment : Payment :=
        { id := payment_id,
          from_username := from_username,
          to_username := to_username,
          amount := amount,
          description := description,
          payment_type := .paymentRequest,
          proof_type := proof_type,
          proof_data := Option.none,
          status := .pending,
          created_at := env.blockTime,
          updated_at := env.blockTime }
      .ok ({ s with
              state := { s.state with next_payment_id := payment_id + 1 },
              payments := saveKV s.payments payment_id payment,
              userPayments :=
                saveKV
                  (saveKV s.userPayments (from_username, payment_id) true)
                  (to_username, payment_id) true },
           [])

/-- `execute_create_help_request` (escrows the attached funds; note: no
zero-amount check in the source). -/
def execute_create_help_request (s : St) (env : Env) (info : Info)
    (to_username : String) (amount : Coin) (description : String)
    (proof_type : ProofType) : ExecResult :=
  match get_username_from_wallet s info.sender with
  | .error e => .error e
  | .ok from_username =>
    if from_username = to_username then .error .cannotPaySelf
    else if (findKV s.usersByUsername to_username).isNone then
      .error .userNotFound
    else if sentAmount info.funds amount.denom < amount.amount then
      .error .insufficientFunds
    else
      let payment_id := s.state.next_payment_id
      let payment : Payment :=
        { id := payment_id,
          from_username := from_username,
          to_username := to_username,
          amount := amount,
          description := description,
          payment_type := .helpRequest,
          proof_type := proof_type,
          proof_data := Option.none,
          status := .pending,
          created_at := env.blockTime,
          updated_at := env.blockTime }
      .ok ({ s with
              state := { s.state with next_payment_id := payment_id + 1 },
              payments := saveKV s.payments payment_id payment,
              userPayments :=
                saveKV
                  (saveKV s.userPayments (from_username, payment_id) true)
                  (to_username, payment_id) true },
           [])

/-- `execute_submit_proof`. -/
def execute_submit_proof (s : St) (env : Env) (info : Info)
    (payment_id : Nat) (proof_data : String) : ExecResult :=
  match get_username_from_wallet s info.sender with
  | .error e => .error e
  | .ok username =>
    match findKV s.payments payment_id with
    | Option.none => .error .paymentNotFound
    | some payment =>
      if payment.to_username ≠ username then .error .paymentNotAuthorized
      else if payment.proof_type = .none then .error .noProofRequired
      else if payment.status ≠ .pending then .error .paymentAlreadyCompleted
      else
        let payment' : Payment :=
          { payment with
              proof_data := some proof_data,
              status := .proofSubmitted,
              updated_at := env.blockTime }
        .ok ({ s with payments := saveKV s.payments payment_id payment' },
             [])

/-- The approval/rejection authorization rule of
`execute_approve_payment` / `execute_reject_payment`. -/
def approveAuthorized (payment : Payment) (username : String) : Prop :=
  match payment.payment_type with
  | .directPayment => payment.from_username = username
  | .paymentRequest => payment.to_username = username
  | .helpRequest => payment.from_username = username

instance (payment : Payment) (username : String) :
    Decidable (approveAuthorized payment username) := by
  unfold approveAuthorized
  match payment.payment_type with
  | .directPayment => exact inferInstanceAs (Decidable (_ = _))
  | .paymentRequest => exact inferInstanceAs (Decidable (_ = _))
  | .helpRequest => exact inferInstanceAs (Decidable (_ = _))

/-- `execute_approve_payment`.  The `PAYMENTS.update` closure only rejects a
`Completed` status; the bank message is built from the payment loaded before
the update. -/
def execute_approve_payment (s : St) (env : Env) (info : Info)
    (payment_id : Nat) : ExecResult :=
  match get_username_from_wallet s info.sender with
  | .error e => .error e
  | .ok username =>
    match findKV s.payments payment_id with
    | Option.none => .error .paymentNotFound
    | some payment =>
      if ¬ approveAuthorized payment username then
        .error .paymentNotAuthorized
      else if payment.proof_type ≠ .none ∧
          payment.status ≠ .proofSubmitted then
        .error .proofRequired
      else if payment.status = .completed then
        .error .paymentAlreadyCompleted
      else
        let payment' : Payment :=
          { payment with status := .completed, updated_at := env.blockTime }
        match findKV s.usersByUsername payment.to_username with
        | Option.none => .error .std
        | some recipient =>
          .ok ({ s with payments := saveKV s.payments payment_id payment' },
               [.bankSend recipient.wallet_address [payment.amount]])

/-- `execute_reject_payment`. -/
def execute_reject_payment (s : St) (env : Env) (info : Info)
    (payment_id : Nat) : ExecResult :=
  match get_username_from_wallet s info.sender with
  | .error e => .error e
  | .ok username =>
    match findKV s.payments payment_id with
    | Option.none => .error .paymentNotFound
    | some payment =>
      if ¬ approveAuthorized payment username then
        .error .paymentNotAuthorized
      else if payment.status = .completed ∨ payment.status = .cancelled then
        .error .paymentAlreadyCompleted
      else
        let payment' : Payment :=
          { payment with status := .rejected, updated_at := env.blockTime }
        .ok ({ s with payments := saveKV s.payments payment_id payment' },
             [])

/-- `execute_cancel_payment`.  Only the sender may cancel; a refund bank
message is issued only for `HelpRequest` payments. -/
def execute_cancel_payment (s : St) (env : Env) (info : Info)
    (payment_id : Nat) : ExecResult :=
  match get_username_from_wallet s info.sender with
  | .error e => .error e
  | .ok username =>
    match findKV s.payments payment_id with
    | Option.none => .error .paymentNotFound
    | some payment =>
      if payment.from_username ≠ username then .error .onlySenderCanCancel
      else if payment.status = .completed then .error .paymentAlreadyCompleted
      else if payment.status = .cancelled then .error .paymentAlreadyCancelled
      else
        let payment' : Payment :=
          { payment with status := .cancelled, updated_at := env.blockTime }
        match findKV s.usersByUsername payment.from_username with
        | Option.none => .error .std
        | some sender =>
          let msgs : List CosmosMsg :=
            match payment.payment_type with
            | .helpRequest =>
              [.bankSend sender.wallet_address [payment.amount]]
            | _ => []
          .ok ({ s with payments := saveKV s.payments payment_id payment' },
               msgs)

/-- `msg.rs` `ExecuteMsg`. -/
inductive ExecuteMsg where
  | registerUser (username display_name : String)
  | updateUserProfile (display_name profile_picture : Option String)
  | sendFriendRequest (to_username : String)
  | acceptFriendRequest (from_username : String)
  | declineFriendRequest (from_username : String)
  | removeFriend (username : String)
  | sendDirectPayment (to_username : String) (amount : Coin)
      (description : String) (proof_type : ProofType)
  | createPaymentRequest (to_username : String) (amount : Coin)
      (description : String) (proof_type : ProofType)
  | createHelpRequest (to_username : String) (amount : Coin)
      (description : String) (proof_type : ProofType)
  | submitProof (payment_id : Nat) (proof_data : String)
  | approvePayment (payment_id : Nat)
  | rejectPayment (payment_id : Nat)
  | cancelPayment (payment_id : Nat)
deriving DecidableEq, Repr

/-- The `execute` dispatcher. -/
def execute (s : St) (env : Env) (info : Info) : ExecuteMsg → ExecResult
  | .registerUser u d => execute_register_user s env info u d
  | .updateUserProfile d p => execute_update_user_profile s env info d p
  | .sendFriendRequest t => execute_send_friend_request s env info t
  | .acceptFriendRequest f => execute_accept_friend_request s env info f
  | .declineFriendRequest f => execute_decline_friend_request s env info f
  | .removeFriend u => execute_remove_friend s env info u
  | .sendDirectPayment t a d p =>
    execute_send_direct_payment s env info t a d p
  | .createPaymentRequest t a d p =>
    execute_create_payment_request s env info t a d p
  | .createHelpRequest t a d p =>
    execute_create_help_request s env info t a d p
  | .submitProof i pd => execute_submit_proof s env info i pd
  | .approvePayment i => execute_approve_payment s env info i
  | .rejectPayment i => execute_reject_payment s env info i
  | .cancelPayment i => execute_cancel_payment s env info i

/-- Storage states reachable from instantiation by successful entry-point
calls. -/
inductive Reachable : St → Prop where
  | init (sender : String) : Reachable (instantiate sender)
  | step {s s' : St} {env : Env} {info : Info} {msg : ExecuteMsg}
      {out : List CosmosMsg} : Reachable s →
      execute s env info msg = .ok (s', out) → Reachable s'

/-- The storage returned by a successful call (dummy fallback on error). -/
def okSt (r : ExecResult) : St :=
  match r with
  | .ok (s, _) => s
  | .error _ => instantiate "unreachable"

/-- The bank messages returned by a successful call. -/
def okMsgs (r : ExecResult) : List CosmosMsg :=
  match r with
  | .ok (_, m) => m
  | .error _ => []

/-- Whether a call succeeded. -/
def isOk (r : ExecResult) : Bool :=
  match r with
  | .ok _ => true
  | .error _ => false

/-- Every stored payment id is below the counter, so the counter's value is
fresh. -/
def PaymentIdsBounded (s : St) : Prop :=
  ∀ k : Nat, (findKV s.payments k).isSome → k < s.state.next_payment_id

/-- The two user registries agree: a wallet maps to a username exactly when
that username's user record carries that wallet. -/
def RegConsistent (s : St) : Prop :=
  ∀ w u : String,
    findKV s.usersByWallet w = some u ↔
      ∃ usr : User,
        findKV s.usersByUsername u = some usr ∧ usr.wallet_address = w

/-- The inductive invariant of the social-payment contract. -/
def Inv (s : St) : Prop := PaymentIdsBounded s ∧ RegConsistent s

/-- What a successful creation call guarantees about id assignment: every
previously stored id is strictly below the assigned id (the counter value),
the assigned id was unused, the new record is stored under it, and the
counter advances by one. -/
def CreationOk (s s' : St) : Prop :=
  (∀ k : Nat, (findKV s.payments k).isSome → k < s.state.next_payment_id) ∧
  findKV s.payments s.state.next_payment_id = Option.none ∧
  (findKV s'.payments s.state.next_payment_id).isSome = true ∧
  s'.state.next_payment_id = s.state.next_payment_id + 1

/-! Concrete execution traces used as counterexamples / witnesses.
`trA*`: register alice and bob, then a `HelpRequest` with proof `None` that
is cancelled (refund) and afterwards approved (second transfer). -/

/-- Registered coin used by the concrete traces. -/
def uatom (n : Nat) : Coin := ⟨"uatom", n⟩

def trA0 : St := instantiate "owner"

def trA1 : ExecResult :=
  execute trA0 ⟨10⟩ ⟨"walletA", []⟩ (.registerUser "alice" "Alice")

def trA2 : ExecResult :=
  execute (okSt trA1) ⟨11⟩ ⟨"walletB", []⟩ (.registerUser "bob" "Bob")

def trA3 : ExecResult :=
  execute (okSt trA2) ⟨12⟩ ⟨"walletA", [uatom 50]⟩
    (.createHelpRequest "bob" (uatom 50) "fix roof" .none)

def trA4 : ExecResult :=
  execute (okSt trA3) ⟨13⟩ ⟨"walletA", []⟩ (.cancelPayment 1)

def trA5 : ExecResult :=
  execute (okSt trA4) ⟨14⟩ ⟨"walletA", []⟩ (.approvePayment 1)

/-! `trB*`: a `Manual`-proof direct payment whose proof is submitted,
rejected, and then resubmitted. -/

def trB3 : ExecResult :=
  execute (okSt trA2) ⟨12⟩ ⟨"walletA", [uatom 50]⟩
    (.sendDirectPayment "bob" (uatom 50) "clean garage" .manual)

def trB4 : ExecResult :=
  execute (okSt trB3) ⟨13⟩ ⟨"walletB", []⟩ (.submitProof 1 "photo-hash")

def trB5 : ExecResult :=
  execute (okSt trB4) ⟨14⟩ ⟨"walletA", []⟩ (.rejectPayment 1)

def trB6 : ExecResult :=
  execute (okSt trB5) ⟨15⟩ ⟨"walletB", []⟩ (.submitProof 1 "photo-hash-2")

/-! `trC*`: zero-amount creation attempts. -/

def trC1 : ExecResult :=
  execute (okSt trA2) ⟨12⟩ ⟨"walletA", []⟩
    (.createPaymentRequest "bob" (uatom 0) "zero" .manual)

def trC2 : ExecResult :=
  execute (okSt trA2) ⟨12⟩ ⟨"walletA", []⟩
    (.createHelpRequest "bob" (uatom 0) "zero" .manual)

def trC3 : ExecResult :=
  execute (okSt trA2) ⟨12⟩ ⟨"walletA", []⟩
    (.sendDirectPayment "bob" (uatom 0) "zero" .manual)

/-! `trD*`: attaching more funds than the declared amount. -/

def trD1 : ExecResult :=
  execute (okSt trA2) ⟨12⟩ ⟨"walletA", [uatom 80]⟩
    (.createHelpRequest "bob" (uatom 50) "extra" .manual)

def trD2 : ExecResult :=
  execute (okSt trA2) ⟨12⟩ ⟨"walletA", [uatom 80]⟩
    (.sendDirectPayment "bob" (uatom 50) "extra" .none)

/-! `trE*`: a `PaymentRequest` (no escrow at creation) approved by the payee
with no funds attached. -/

def trE3 : ExecResult :=
  execute (okSt trA2) ⟨12⟩ ⟨"walletA", []⟩
    (.createPaymentRequest "bob" (uatom 30) "owed" .none)

def trE4 : ExecResult :=
  execute (okSt trE3) ⟨13⟩ ⟨"walletB", []⟩ (.approvePayment 1)

/-! `trF*`: a direct payment with proof policy `None`. -/

def trF3 : ExecResult :=
  execute (okSt trA2) ⟨12⟩ ⟨"walletA", [uatom 100]⟩
    (.sendDirectPayment "bob" (uatom 100) "gift" .none)

end SP

namespace CW

/-- `msg.rs` `ProofType` of the contracts-cosmwasm variant. -/
inductive ProofType where
  | text
  | photo
  | zkTLS
  | hybrid
deriving DecidableEq, Repr

/-- `msg.rs` `PaymentStatus` of the contracts-cosmwasm variant. -/
inductive PaymentStatus where
  | pending
  | completed
  | disputed
  | cancelled
deriving DecidableEq, Repr

/-- `state.rs` `Payment` (the `Binary` proof blob is embedded as a string,
only its length is ever inspected). -/
structure Payment where
  id : String
  sender : String
  recipient : String
  amount : Nat
  token : Option String
  status : PaymentStatus
  proof_type : Option ProofType
  proof_data : Option String
  description : Option String
  created_at : Nat
  completed_at : Option Nat
  requires_proof : Bool
deriving DecidableEq, Repr

/-- `state.rs` `User`. -/
structure User where
  username : String
  is_registered : Bool
  authorized_addresses : List String
  created_at : Nat
deriving DecidableEq, Repr

/-- `state.rs` `Config`. -/
structure Config where
  admin : String
deriving DecidableEq, Repr

/-- `state.rs` `Stats`. -/
structure Stats where
  total_users : Nat
  total_payments : Nat
  total_volume : Nat
deriving DecidableEq, Repr

/-- The persisted storage of the contracts-cosmwasm variant. -/
structure St where
  config : Config
  stats : Stats
  users : List (String × User)
  usernameToAddress : List (String × String)
  payments : List (String × Payment)
  userPayments : List (String × List String)
  pendingBalances : List (String × Nat)
deriving DecidableEq, Repr

/-- `error.rs` `ContractError` of this variant. -/
inductive Err where
  | std
  | unauthorized
  | userAlreadyRegistered
  | userNotRegistered
  | usernameTaken
  | invalidUsername
  | paymentNotFound
  | paymentNotPending
  | invalidAmount
  | invalidProof
  | proofRequired
  | cannotPaySelf
  | addressAlreadyAuthorized
  | addressNotAuthorized
  | invalidDescriptionLength
  | invalidDisputeReason
  | crossChainError
deriving DecidableEq, Repr

/-- Block time in seconds, the only part of `Env` read. -/
structure Env where
  blockTime : Nat
deriving DecidableEq, Repr

/-- Authenticated sender (this variant never reads attached funds). -/
structure Info where
  sender : String
deriving DecidableEq, Repr

abbrev ExecResult := Except Err (St × List SP.CosmosMsg)

/-- `instantiate`: admin defaults to the sender, zeroed stats, empty maps. -/
def instantiate (admin : Option String) (sender : String) : St :=
  ⟨⟨admin.getD sender⟩, ⟨0, 0, 0⟩, [], [], [], [], []⟩

/-- `execute_register_user`. -/
def execute_register_user (s : St) (env : Env) (info : Info)
    (username : String) : ExecResult :=
  if (findKV s.users info.sender).isSome then .error .userAlreadyRegistered
  else if username.length = 0 ∨ 32 < username.length then
    .error .invalidUsername
  else if (findKV s.usernameToAddress username).isSome then
    .error .usernameTaken
  else
    let user : User := ⟨username, true, [], env.blockTime⟩
    .ok ({ s with
            users := saveKV s.users info.sender user,
            usernameToAddress :=
              saveKV s.usernameToAddress username info.sender,
            stats :=
              { s.stats with total_users := s.stats.total_users + 1 } },
         [])

/-- `execute_add_authorized_address`; `api` is the host's `addr_validate`
oracle. -/
def execute_add_authorized_address (api : String → Bool) (s : St)
    (info : Info) (address : String) : ExecResult :=
  match findKV s.users info.sender with
  | Option.none => .error .userNotRegistered
  | some user =>
    if ¬ api address then .error .std
    else if address = info.sender then .error .cannotPaySelf
    else if address ∈ user.authorized_addresses then
      .error .addressAlreadyAuthorized
    else
      let user' : User :=
        { user with
            authorized_addresses := user.authorized_addresses ++ [address] }
      .ok ({ s with users := saveKV s.users info.sender user' }, [])

/-- `execute_remove_authorized_address`. -/
def execute_remove_authorized_address (s : St) (info : Info)
    (address : String) : ExecResult :=
  match findKV s.users info.sender with
  | Option.none => .error .userNotRegistered
  | some user =>
    if address ∉ user.authorized_addresses then .error .addressNotAuthorized
    else
      let user' : User :=
        { user with
            authorized_addresses :=
              user.authorized_addresses.filter fun a => a ≠ address }
      .ok ({ s with users := saveKV s.users info.sender user' }, [])

/-- The payment id format string
`format!("\x7b\x7d:\x7b\x7d:\x7b\x7d:\x7b\x7d", sender, recipient, amount,
env.block.time.seconds())`. -/
def paymentIdFor (sender recipient : String) (amount : Nat) (t : Nat) :
    String :=
  sender ++ ":" ++ recipient ++ ":" ++ toString amount ++ ":" ++ toString t

/-- `execute_create_payment`. -/
def execute_create_payment (api : String → Bool) (s : St) (env : Env)
    (info : Info) (recipient : String) (amount : Nat)
    (token : Option String) (proof_type : Option ProofType)
    (description : Option String) (requires_proof : Bool) : ExecResult :=
  if ¬ api recipient then .error .std
  else if recipient = info.sender then .error .cannotPaySelf
  else if amount = 0 then .error .invalidAmount
  else if 500 < ((description.map String.length).getD 0) then
    .error .invalidDescriptionLength
  else
    let payment_id := paymentIdFor info.sender recipient amount env.blockTime
    let payment : Payment :=
      { id := payment_id,
        sender := info.sender,
        recipient := recipient,
        amount := amount,
        token := token,
        status := .pending,
        proof_type := proof_type,
        proof_data := Option.none,
        description := description,
        created_at := env.blockTime,
        completed_at := Option.none,
        requires_proof := requires_proof }
    let up1 :=
      saveKV s.userPayments info.sender
        ((findKV s.userPayments info.sender).getD [] ++ [payment_id])
    let up2 :=
      saveKV up1 recipient
        ((findKV up1 recipient).getD [] ++ [payment_id])
    .ok ({ s with
            payments := saveKV s.payments payment_id payment,
            userPayments := up2,
            pendingBalances :=
              saveKV s.pendingBalances recipient
                ((findKV s.pendingBalances recipient).getD 0 + amount),
            stats :=
              { s.stats with
                  total_payments := s.stats.total_payments + 1,
                  total_volume := s.stats.total_volume + amount } },
         [])

/-- `execute_submit_proof`. -/
def execute_submit_proof (s : St) (info : Info) (payment_id : String)
    (proof : String) : ExecResult :=
  match findKV s.payments payment_id with
  | Option.none => .error .paymentNotFound
  | some payment =>
    if payment.status ≠ .pending then .error .paymentNotPending
    else if info.sender ≠ payment.recipient then .error .unauthorized
    else if ¬ payment.requires_proof then .error .invalidProof
    else if 10000 < proof.length then .error .invalidProof
    else
      .ok ({ s with
              payments :=
                saveKV s.payments payment_id
                  { payment with proof_data := some proof } },
           [])

/-- `execute_complete_payment` (the pending-balance update is an unchecked
`Uint128` subtraction in the source; it is embedded as `Nat` subtraction and
its underflow-freedom is proved from the reachability invariant). -/
def execute_complete_payment (s : St) (env : Env) (info : Info)
    (payment_id : String) : ExecResult :=
  match findKV s.payments payment_id with
  | Option.none => .error .paymentNotFound
  | some payment =>
    if payment.status ≠ .pending then .error .paymentNotPending
    else if info.sender ≠ payment.sender ∧ info.sender ≠ payment.recipient
    then .error .unauthorized
    else if payment.requires_proof ∧ payment.proof_data = Option.none then
      .error .proofRequired
    else if payment.requires_proof ∧ info.sender ≠ payment.sender then
      .error .unauthorized
    else
      let payment' : Payment :=
        { payment with
            status := .completed, completed_at := some env.blockTime }
      let msgs : List SP.CosmosMsg :=
        match payment.token with
        | Option.none =>
          [.bankSend payment.recipient [⟨"uosmo", payment.amount⟩]]
        | some _ => []
      .ok ({ s with
              payments := saveKV s.payments payment_id payment',
              pendingBalances :=
                saveKV s.pendingBalances payment.recipient
                  ((findKV s.pendingBalances payment.recipient).getD 0 -
                    payment.amount) },
           msgs)

/-- `execute_dispute_payment` (note: it does not touch the pending
balance). -/
def execute_dispute_payment (s : St) (_env : Env) (info : Info)
    (payment_id : String) (reason : String) : ExecResult :=
  match findKV s.payments payment_id with
  | Option.none => .error .paymentNotFound
  | some payment =>
    if payment.status ≠ .pending then .error .paymentNotPending
    else if info.sender ≠ payment.sender ∧ info.sender ≠ payment.recipient
    then .error .unauthorized
    else if reason.length = 0 ∨ 200 < reason.length then
      .error .invalidDisputeReason
    else
      .ok ({ s with
              payments :=
                saveKV s.payments payment_id
                  { payment with status := .disputed } },
           [])

/-- `execute_cancel_payment`. -/
def execute_cancel_payment (s : St) (_env : Env) (info : Info)
    (payment_id : String) : ExecResult :=
  match findKV s.payments payment_id with
  | Option.none => .error .paymentNotFound
  | some payment =>
    if payment.status ≠ .pending then .error .paymentNotPending
    else if info.sender ≠ payment.sender then .error .unauthorized
    else
      let payment' : Payment := { payment with status := .cancelled }
      let msgs : List SP.CosmosMsg :=
        match payment.token with
        | Option.none =>
          [.bankSend payment.sender [⟨"uosmo", payment.amount⟩]]
        | some _ => []
      .ok ({ s with
              payments := saveKV s.payments payment_id payment',
              pendingBalances :=
                saveKV s.pendingBalances payment.recipient
                  ((findKV s.pendingBalances payment.recipient).getD 0 -
                    payment.amount) },
           msgs)

/-- `msg.rs` `ExecuteMsg` of this variant. -/
inductive ExecuteMsg where
  | registerUser (username : String)
  | addAuthorizedAddress (address : String)
  | removeAuthorizedAddress (address : String)
  | createPayment (recipient : String) (amount : Nat)
      (token : Option String) (proof_type : Option ProofType)
      (description : Option String) (requires_proof : Bool)
  | submitProof (payment_id proof : String)
  | completePayment (payment_id : String)
  | disputePayment (payment_id reason : String)
  | cancelPayment (payment_id : String)
  | sendIbcPayment

/-- The `execute` dispatcher (`SendIbcPayment` always fails). -/
def execute (api : String → Bool) (s : St) (env : Env) (info : Info) :
    ExecuteMsg → ExecResult
  | .registerUser u => execute_register_user s env info u
  | .addAuthorizedAddress a => execute_add_authorized_address api s info a
  | .removeAuthorizedAddress a => execute_remove_authorized_address s info a
  | .createPayment r a t pt d rp =>
    execute_create_payment api s env info r a t pt d rp
  | .submitProof i p => execute_submit_proof s info i p
  | .completePayment i => execute_complete_payment s env info i
  | .disputePayment i r => execute_dispute_payment s env info i r
  | .cancelPayment i => execute_cancel_payment s env info i
  | .sendIbcPayment => .error .crossChainError

/-- Reachable storage states, relative to the host's address-validation
oracle. -/
inductive Reachable (api : String → Bool) : St → Prop where
  | init (admin : Option String) (sender : String) :
      Reachable api (instantiate admin sender)
  | step {s s' : St} {env : Env} {info : Info} {msg : ExecuteMsg}
      {out : List SP.CosmosMsg} : Reachable api s →
      execute api s env info msg = .ok (s', out) → Reachable api s'

/-- The storage returned by a successful call (dummy fallback on error). -/
def okSt (r : ExecResult) : St :=
  match r with
  | .ok (s, _) => s
  | .error _ => instantiate Option.none "unreachable"

/-- Whether a call succeeded. -/
def isOk (r : ExecResult) : Bool :=
  match r with
  | .ok _ => true
  | .error _ => false

/-- What a payment contributes to the recipient's pending balance: its
amount while it is `Pending`, nothing otherwise. -/
def contribution (p : Payment) (r : String) : Nat :=
  if p.status = .pending ∧ p.recipient = r then p.amount else 0

/-- Sum of the pending contributions to `r` over the payment store. -/
def pendingSum (m : List (String × Payment)) (r : String) : Nat :=
  (m.map fun kv => contribution kv.2 r).sum

/-- The stored pending balance of `r` (absent key reads as zero). -/
def pendingBal (s : St) (r : String) : Nat :=
  (findKV s.pendingBalances r).getD 0

/-- The pending-balance invariant that actually holds: the stored balance
dominates the sum of `Pending` payment amounts per recipient. -/
def PendingInv (s : St) : Prop :=
  ∀ r : String, pendingSum s.payments r ≤ pendingBal s r

/-- The host oracle that accepts every address (used by concrete traces). -/
def apiAll : String → Bool := fun _ => true

/-! Concrete traces of this variant: a payment that is disputed, and a
same-block duplicate creation. -/

def cw0 : St := instantiate Option.none "deployer"

def cw1 : ExecResult :=
  execute apiAll cw0 ⟨100⟩ ⟨"osmoA"⟩
    (.createPayment "osmoB" 40 Option.none Option.none Option.none false)

def cw2 : ExecResult :=
  execute apiAll (okSt cw1) ⟨100⟩ ⟨"osmoA"⟩
    (.disputePayment "osmoA:osmoB:40:100" "goods not delivered")

def cw1b : ExecResult :=
  execute apiAll (okSt cw1) ⟨100⟩ ⟨"osmoA"⟩
    (.createPayment "osmoB" 40 Option.none Option.none Option.none false)

end CW



/-! ## Theorems -/

theorem findKV_saveKV_self [DecidableEq α] (m : List (α × β)) (k : α) (v : β) :
    findKV (saveKV m k v) k = some v := by
  induction m with
  | nil => simp [saveKV, findKV]
  | cons hd t ih =>
    obtain ⟨k', v'⟩ := hd
    by_cases h : k = k' <;> simp [saveKV, findKV, h, ih]

theorem findKV_saveKV_ne [DecidableEq α] (m : List (α × β)) {k k' : α} (v : β)
    (h : k' ≠ k) : findKV (saveKV m k v) k' = findKV m k' := by
  induction m with
  | nil => simp [saveKV, findKV, h]
  | cons hd t ih =>
    obtain ⟨k0, v0⟩ := hd
    by_cases hk : k = k0
    · subst hk; simp [saveKV, findKV, h]
    · by_cases hk' : k' = k0 <;> simp [saveKV, findKV, hk, hk', ih]

theorem findKV_saveKV_isSome [DecidableEq α] {m : List (α × β)} {k k' : α}
    {v : β} (h : (findKV (saveKV m k v) k').isSome) :
    k' = k ∨ (findKV m k').isSome := by
  by_cases hk : k' = k
  · exact Or.inl hk
  · exact Or.inr (by rwa [findKV_saveKV_ne m v hk] at h)

theorem not_isSome_eq_none {o : Option α} (h : ¬ o.isSome = true) :
    o = Option.none := by
  cases o <;> simp_all

namespace SP

theorem get_username_ok {s : St} {w u : String}
    (h : get_username_from_wallet s w = .ok u) :
    findKV s.usersByWallet w = some u := by
  unfold get_username_from_wallet at h
  split at h
  · rename_i hf; cases h; exact hf
  · cases h

theorem inv_instantiate (sender : String) : Inv (instantiate sender) := by
  constructor
  · intro k hk; simp [instantiate, findKV] at hk
  · intro w u
    constructor
    · intro hf; simp [instantiate, findKV] at hf
    · rintro ⟨usr, hf, _⟩; simp [instantiate, findKV] at hf

theorem register_user_inv {s s' : St} {env : Env} {info : Info}
    {u d : String} {out : List CosmosMsg}
    (h : execute_register_user s env info u d = .ok (s', out))
    (hI : Inv s) : Inv s' := by
  obtain ⟨hB, hR⟩ := hI
  unfold execute_register_user at h
  split at h
  · cases h
  split at h
  · cases h
  split at h
  · cases h
  rename_i hu hw
  replace hu : findKV s.usersByUsername u = Option.none :=
    not_isSome_eq_none hu
  replace hw : findKV s.usersByWallet info.sender = Option.none :=
    not_isSome_eq_none hw
  simp only [Except.ok.injEq, Prod.mk.injEq] at h
  obtain ⟨rfl, rfl⟩ := h
  refine ⟨fun k hk => hB k hk, fun w u0 => ?_⟩
  constructor
  · intro hf
    by_cases hws : w = info.sender
    · subst hws
      rw [findKV_saveKV_self] at hf
      obtain rfl : u0 = u := by injection hf with h'; exact h'.symm
      exact ⟨_, findKV_saveKV_self _ _ _, rfl⟩
    · rw [findKV_saveKV_ne _ _ hws] at hf
      obtain ⟨usr, hb, ha⟩ := (hR w u0).mp hf
      by_cases huu : u0 = u
      · subst huu; rw [hu] at hb; cases hb
      · exact ⟨usr, by rwa [findKV_saveKV_ne _ _ huu], ha⟩
  · rintro ⟨usr, hb, ha⟩
    by_cases huu : u0 = u
    · subst huu
      rw [findKV_saveKV_self] at hb
      obtain rfl : usr = ⟨info.sender, u0, d, Option.none,
          env.blockTime, env.blockTime⟩ := by injection hb with h'; exact h'.symm
      subst ha
      exact findKV_saveKV_self _ _ _
    · rw [findKV_saveKV_ne _ _ huu] at hb
      have := (hR w u0).mpr ⟨usr, hb, ha⟩
      by_cases hws : w = info.sender
      · subst hws; rw [hw] at this; cases this
      · rwa [findKV_saveKV_ne _ _ hws]

theorem update_user_profile_inv {s s' : St} {env : Env} {info : Info}
    {d p : Option String} {out : List CosmosMsg}
    (h : execute_update_user_profile s env info d p = .ok (s', out))
    (hI : Inv s) : Inv s' := by
  obtain ⟨hB, hR⟩ := hI
  unfold execute_update_user_profile at h
  split at h
  · cases h
  rename_i username hok
  split at h
  · cases h
  rename_i user hfind
  simp only [Except.ok.injEq, Prod.mk.injEq] at h
  obtain ⟨rfl, rfl⟩ := h
  refine ⟨fun k hk => hB k hk, fun w u0 => ?_⟩
  constructor
  · intro hf
    obtain ⟨usr, hb, ha⟩ := (hR w u0).mp hf
    by_cases huu : u0 = username
    · subst huu
      rw [hfind] at hb
      obtain rfl : usr = user := by injection hb with h'; exact h'.symm
      exact ⟨_, findKV_saveKV_self _ _ _, ha⟩
    · exact ⟨usr, by rwa [findKV_saveKV_ne _ _ huu], ha⟩
  · rintro ⟨usr, hb, ha⟩
    by_cases huu : u0 = username
    · subst huu
      rw [findKV_saveKV_self] at hb
      have haw : user.wallet_address = w := by
        cases hb; exact ha
      exact (hR w u0).mpr ⟨user, hfind, haw⟩
    · rw [findKV_saveKV_ne _ _ huu] at hb
      exact (hR w u0).mpr ⟨usr, hb, ha⟩

end SP

namespace SP

theorem send_friend_request_inv {s s' : St} {env : Env} {info : Info}
    {t : String} {out : List CosmosMsg}
    (h : execute_send_friend_request s env info t = .ok (s', out))
    (hI : Inv s) : Inv s' := by
  unfold execute_send_friend_request at h
  split at h
  · cases h
  split at h
  · cases h
  split at h
  · cases h
  split at h
  · cases h
  split at h
  · cases h
  simp only [Except.ok.injEq, Prod.mk.injEq] at h
  obtain ⟨rfl, rfl⟩ := h
  exact hI

theorem accept_friend_request_inv {s s' : St} {env : Env} {info : Info}
    {f : String} {out : List CosmosMsg}
    (h : execute_accept_friend_request s env info f = .ok (s', out))
    (hI : Inv s) : Inv s' := by
  unfold execute_accept_friend_request at h
  split at h
  · cases h
  split at h
  · cases h
  simp only [Except.ok.injEq, Prod.mk.injEq] at h
  obtain ⟨rfl, rfl⟩ := h
  exact hI

theorem decline_friend_request_inv {s s' : St} {env : Env} {info : Info}
    {f : String} {out : List CosmosMsg}
    (h : execute_decline_friend_request s env info f = .ok (s', out))
    (hI : Inv s) : Inv s' := by
  unfold execute_decline_friend_request at h
  split at h
  · cases h
  split at h
  · cases h
  simp only [Except.ok.injEq, Prod.mk.injEq] at h
  obtain ⟨rfl, rfl⟩ := h
  exact hI

theorem remove_friend_inv {s s' : St} {env : Env} {info : Info}
    {f : String} {out : List CosmosMsg}
    (h : execute_remove_friend s env info f = .ok (s', out))
    (hI : Inv s) : Inv s' := by
  unfold execute_remove_friend at h
  split at h
  · cases h
  split at h
  · cases h
  simp only [Except.ok.injEq, Prod.mk.injEq] at h
  obtain ⟨rfl, rfl⟩ := h
  exact hI

theorem creation_bounded {s : St} {pay : Payment}
    (hB : PaymentIdsBounded s) (k : Nat)
    (hk : (findKV (saveKV s.payments s.state.next_payment_id pay) k).isSome) :
    k < s.state.next_payment_id + 1 := by
  rcases findKV_saveKV_isSome hk with rfl | hold
  · exact Nat.lt_succ_self _
  · exact Nat.lt_succ_of_lt (hB k hold)

theorem send_direct_payment_inv {s s' : St} {env : Env} {info : Info}
    {t : String} {a : Coin} {d : String} {pt : ProofType}
    {out : List CosmosMsg}
    (h : execute_send_direct_payment s env info t a d pt = .ok (s', out))
    (hI : Inv s) : Inv s' := by
  obtain ⟨hB, hR⟩ := hI
  unfold execute_send_direct_payment at h
  split at h
  · cases h
  split at h
  · cases h
  split at h
  · cases h
  split at h
  · cases h
  split at h
  · cases h
  simp only [Except.ok.injEq, Prod.mk.injEq] at h
  obtain ⟨rfl, rfl⟩ := h
  exact ⟨fun k hk => creation_bounded hB k hk, hR⟩

theorem create_payment_request_inv {s s' : St} {env : Env} {info : Info}
    {t : String} {a : Coin} {d : String} {pt : ProofType}
    {out : List CosmosMsg}
    (h : execute_create_payment_request s env info t a d pt = .ok (s', out))
    (hI : Inv s) : Inv s' := by
  obtain ⟨hB, hR⟩ := hI
  unfold execute_create_payment_request at h
  split at h
  · cases h
  split at h
  · cases h
  split at h
  · cases h
  simp only [Except.ok.injEq, Prod.mk.injEq] at h
  obtain ⟨rfl, rfl⟩ := h
  exact ⟨fun k hk => creation_bounded hB k hk, hR⟩

theorem create_help_request_inv {s s' : St} {env : Env} {info : Info}
    {t : String} {a : Coin} {d : String} {pt : ProofType}
    {out : List CosmosMsg}
    (h : execute_create_help_request s env info t a d pt = .ok (s', out))
    (hI : Inv s) : Inv s' := by
  obtain ⟨hB, hR⟩ := hI
  unfold execute_create_help_request at h
  split at h
  · cases h
  split at h
  · cases h
  split at h
  · cases h
  split at h
  · cases h
  simp only [Except.ok.injEq, Prod.mk.injEq] at h
  obtain ⟨rfl, rfl⟩ := h
  exact ⟨fun k hk => creation_bounded hB k hk, hR⟩

theorem update_bounded {s : St} {pid : Nat} {pay pay' : Payment}
    (hB : PaymentIdsBounded s) (hf : findKV s.payments pid = some pay)
    (k : Nat) (hk : (findKV (saveKV s.payments pid pay') k).isSome) :
    k < s.state.next_payment_id := by
  rcases findKV_saveKV_isSome hk with rfl | hold
  · exact hB k (by rw [hf]; rfl)
  · exact hB k hold

theorem submit_proof_inv {s s' : St} {env : Env} {info : Info}
    {pid : Nat} {pd : String} {out : List CosmosMsg}
    (h : execute_submit_proof s env info pid pd = .ok (s', out))
    (hI : Inv s) : Inv s' := by
  obtain ⟨hB, hR⟩ := hI
  unfold execute_submit_proof at h
  split at h
  · cases h
  split at h
  · cases h
  rename_i pay hf
  split at h
  · cases h
  split at h
  · cases h
  split at h
  · cases h
  simp only [Except.ok.injEq, Prod.mk.injEq] at h
  obtain ⟨rfl, rfl⟩ := h
  exact ⟨fun k hk => update_bounded hB hf k hk, hR⟩

theorem approve_payment_inv {s s' : St} {env : Env} {info : Info}
    {pid : Nat} {out : List CosmosMsg}
    (h : execute_approve_payment s env info pid = .ok (s', out))
    (hI : Inv s) : Inv s' := by
  obtain ⟨hB, hR⟩ := hI
  unfold execute_approve_payment at h
  split at h
  · cases h
  split at h
  · cases h
  rename_i pay hf
  split at h
  · cases h
  split at h
  · cases h
  split at h
  · cases h
  split at h
  · cases h
  simp only [Except.ok.injEq, Prod.mk.injEq] at h
  obtain ⟨rfl, rfl⟩ := h
  exact ⟨fun k hk => update_bounded hB hf k hk, hR⟩

theorem reject_payment_inv {s s' : St} {env : Env} {info : Info}
    {pid : Nat} {out : List CosmosMsg}
    (h : execute_reject_payment s env info pid = .ok (s', out))
    (hI : Inv s) : Inv s' := by
  obtain ⟨hB, hR⟩ := hI
  unfold execute_reject_payment at h
  split at h
  · cases h
  split at h
  · cases h
  rename_i pay hf
  split at h
  · cases h
  split at h
  · cases h
  simp only [Except.ok.injEq, Prod.mk.injEq] at h
  obtain ⟨rfl, rfl⟩ := h
  exact ⟨fun k hk => update_bounded hB hf k hk, hR⟩

theorem cancel_payment_inv {s s' : St} {env : Env} {info : Info}
    {pid : Nat} {out : List CosmosMsg}
    (h : execute_cancel_payment s env info pid = .ok (s', out))
    (hI : Inv s) : Inv s' := by
  obtain ⟨hB, hR⟩ := hI
  unfold execute_cancel_payment at h
  split at h
  · cases h
  split at h
  · cases h
  rename_i pay hf
  split at h
  · cases h
  split at h
  · cases h
  split at h
  · cases h
  split at h
  · cases h
  simp only [Except.ok.injEq, Prod.mk.injEq] at h
  obtain ⟨rfl, rfl⟩ := h
  exact ⟨fun k hk => update_bounded hB hf k hk, hR⟩

theorem execute_inv {s s' : St} {env : Env} {info : Info} {msg : ExecuteMsg}
    {out : List CosmosMsg} (h : execute s env info msg = .ok (s', out))
    (hI : Inv s) : Inv s' := by
  cases msg with
  | registerUser u d => exact register_user_inv h hI
  | updateUserProfile d p => exact update_user_profile_inv h hI
  | sendFriendRequest t => exact send_friend_request_inv h hI
  | acceptFriendRequest f => exact accept_friend_request_inv h hI
  | declineFriendRequest f => exact decline_friend_request_inv h hI
  | removeFriend f => exact @remove_friend_inv s s' env info f out h hI
  | sendDirectPayment t a d pt => exact send_direct_payment_inv h hI
  | createPaymentRequest t a d pt => exact create_payment_request_inv h hI
  | createHelpRequest t a d pt => exact create_help_request_inv h hI
  | submitProof pid pd => exact submit_proof_inv h hI
  | approvePayment pid => exact approve_payment_inv h hI
  | rejectPayment pid => exact reject_payment_inv h hI
  | cancelPayment pid => exact cancel_payment_inv h hI

theorem reachable_inv {s : St} (hr : Reachable s) : Inv s := by
  induction hr with
  | init sender => exact inv_instantiate sender
  | step _ hstep ih => exact execute_inv hstep ih

end SP

/-- C1: in the social-payment contract, cancelling a `HelpRequest` whose
proof policy is `None` issues a refund to the payer, and a subsequent
`ApprovePayment` on the very same (already refunded) record succeeds and
issues a second transfer, to the payee — the record's escrow is paid out
twice, contradicting the at-most-one-transfer invariant.  The approve
guard only rejects `Completed`, not `Cancelled`. -/
theorem claim_C1_cancelled_record_pays_twice :
    SP.isOk SP.trA1 = true ∧ SP.isOk SP.trA2 = true ∧
    SP.isOk SP.trA3 = true ∧
    (SP.okSt SP.trA3).payments.map Prod.fst = [1] ∧
    SP.okMsgs SP.trA4 = [SP.CosmosMsg.bankSend "walletA" [SP.uatom 50]] ∧
    SP.okMsgs SP.trA5 = [SP.CosmosMsg.bankSend "walletB" [SP.uatom 50]] := by
  decide

/-- C2: a record in the terminal status `Cancelled` is not left unchanged by
`ApprovePayment`: the call succeeds and mutates the record to `Completed`
(and issues a transfer), instead of failing with a state-conflict error. -/
theorem claim_C2_terminal_cancelled_record_mutated_by_approve :
    (findKV (SP.okSt SP.trA4).payments 1).map SP.Payment.status =
      some SP.PaymentStatus.cancelled ∧
    SP.isOk SP.trA5 = true ∧
    (findKV (SP.okSt SP.trA5).payments 1).map SP.Payment.status =
      some SP.PaymentStatus.completed := by
  decide

namespace SP

/-- The state with alice and bob registered is reachable. -/
theorem reachable_trA2 : Reachable (okSt trA2) := by
  have h1 : execute trA0 ⟨10⟩ ⟨"walletA", []⟩
      (.registerUser "alice" "Alice") = .ok (okSt trA1, []) := by decide
  have h2 : execute (okSt trA1) ⟨11⟩ ⟨"walletB", []⟩
      (.registerUser "bob" "Bob") = .ok (okSt trA2, []) := by decide
  exact .step (.step (.init "owner") h1) h2

/-- `SubmitProof` always fails on a record whose status is not `Pending`. -/
theorem submit_proof_fails_nonpending {s : St} {env : Env} {info : Info}
    {pid : Nat} {pd : String} {pay : Payment}
    (hf : findKV s.payments pid = some pay)
    (hst : pay.status ≠ .pending) :
    ∃ e, execute_submit_proof s env info pid pd = .error e := by
  cases hgu : get_username_from_wallet s info.sender with
  | error e => exact ⟨e, by simp [execute_submit_proof, hgu]⟩
  | ok username =>
    by_cases h1 : pay.to_username ≠ username
    · exact ⟨.paymentNotAuthorized,
        by simp [execute_submit_proof, hgu, hf, h1]⟩
    · by_cases h2 : pay.proof_type = .none
      · exact ⟨.noProofRequired,
          by simp [execute_submit_proof, hgu, hf, h1, h2]⟩
      · exact ⟨.paymentAlreadyCompleted,
          by simp [execute_submit_proof, hgu, hf, h1, h2, hst]⟩

end SP

/-- C3 (counterexample): in the contracts-cosmwasm variant the id of a new
payment is the string `sender:recipient:amount:block-time`, so a second
successful creation with the same parameters in the same block reuses the
id of the already stored record and overwrites it: after two successful
creations the store holds a single record, while the recipient's pending
balance was credited twice. -/
theorem claim_C3_counterexample_cw_id_collision :
    CW.isOk CW.cw1 = true ∧ CW.isOk CW.cw1b = true ∧
    (CW.okSt CW.cw1).payments.map Prod.fst = ["osmoA:osmoB:40:100"] ∧
    (CW.okSt CW.cw1b).payments.map Prod.fst = ["osmoA:osmoB:40:100"] ∧
    CW.pendingBal (CW.okSt CW.cw1b) "osmoB" = 80 := by
  decide

/-- C3 (amended): in the counter-based contract (`src/src/contract.rs`)
every successful creation entry point assigns the current counter value,
which is strictly greater than every stored id and unused, stores the new
record under it and increments the counter; the contracts-cosmwasm variant
does not have this property (see the counterexample). -/
theorem claim_C3_amended_counter_ids_fresh_monotonic :
    ∀ (s s' : SP.St) (env : SP.Env) (info : SP.Info) (t : String)
      (a : SP.Coin) (d : String) (pt : SP.ProofType)
      (out : List SP.CosmosMsg),
      SP.Reachable s →
      (SP.execute_send_direct_payment s env info t a d pt = .ok (s', out) ∨
       SP.execute_create_payment_request s env info t a d pt =
         .ok (s', out) ∨
       SP.execute_create_help_request s env info t a d pt = .ok (s', out)) →
      SP.CreationOk s s' := by
  intro s s' env info t a d pt out hr hcase
  have hB := (SP.reachable_inv hr).1
  have hfresh : findKV s.payments s.state.next_payment_id = Option.none := by
    cases hfind : findKV s.payments s.state.next_payment_id with
    | none => rfl
    | some p =>
      exact absurd (hB _ (by rw [hfind]; rfl)) (lt_irrefl _)
  rcases hcase with h | h | h
  · unfold SP.execute_send_direct_payment at h
    split at h
    · cases h
    split at h
    · cases h
    split at h
    · cases h
    split at h
    · cases h
    split at h
    · cases h
    simp only [Except.ok.injEq, Prod.mk.injEq] at h
    obtain ⟨rfl, rfl⟩ := h
    exact ⟨hB, hfresh, by rw [findKV_saveKV_self]; rfl, rfl⟩
  · unfold SP.execute_create_payment_request at h
    split at h
    · cases h
    split at h
    · cases h
    split at h
    · cases h
    simp only [Except.ok.injEq, Prod.mk.injEq] at h
    obtain ⟨rfl, rfl⟩ := h
    exact ⟨hB, hfresh, by rw [findKV_saveKV_self]; rfl, rfl⟩
  · unfold SP.execute_create_help_request at h
    split at h
    · cases h
    split at h
    · cases h
    split at h
    · cases h
    split at h
    · cases h
    simp only [Except.ok.injEq, Prod.mk.injEq] at h
    obtain ⟨rfl, rfl⟩ := h
    exact ⟨hB, hfresh, by rw [findKV_saveKV_self]; rfl, rfl⟩

/-- C3 (witness): the amended theorem applied to the reachable two-user
state and the concrete direct payment `trF3`. -/
theorem claim_C3_amended_witness :
    SP.CreationOk (SP.okSt SP.trA2) (SP.okSt SP.trF3) :=
  claim_C3_amended_counter_ids_fresh_monotonic (SP.okSt SP.trA2)
    (SP.okSt SP.trF3) ⟨12⟩ ⟨"walletA", [SP.uatom 100]⟩ "bob" (SP.uatom 100)
    "gift" .none [SP.CosmosMsg.bankSend "walletB" [SP.uatom 100]]
    SP.reachable_trA2 (Or.inl (by decide))

/-- C4 (counterexample): `CreatePaymentRequest` and `CreateHelpRequest`
accept a declared amount of zero — the creations succeed instead of
returning a validation error (only `SendDirectPayment` checks for zero). -/
theorem claim_C4_counterexample_zero_amount_accepted :
    SP.isOk SP.trC1 = true ∧ SP.isOk SP.trC2 = true := by
  decide

/-- C4 (amended): only the direct-payment creation entry point rejects a
zero declared amount (with `InvalidPaymentAmount`, state unchanged); the
payment-request and help-request entry points accept zero-amount records. -/
theorem claim_C4_amended_only_direct_rejects_zero :
    (∀ (s : SP.St) (env : SP.Env) (info : SP.Info) (t : String)
      (a : SP.Coin) (d : String) (pt : SP.ProofType) (fu : String)
      (rec : SP.User),
      findKV s.usersByWallet info.sender = some fu → fu ≠ t →
      findKV s.usersByUsername t = some rec → a.amount = 0 →
      SP.execute_send_direct_payment s env info t a d pt =
        .error .invalidPaymentAmount) ∧
    SP.isOk SP.trC1 = true ∧ SP.isOk SP.trC2 = true := by
  refine ⟨?_, by decide, by decide⟩
  intro s env info t a d pt fu rec hw hne hrec ha
  simp [SP.execute_send_direct_payment, SP.get_username_from_wallet,
    hw, hne, hrec, ha]

/-- C4 (witness): the amended theorem applied to the two-user state with a
zero-amount direct payment. -/
theorem claim_C4_amended_witness :
    SP.execute_send_direct_payment (SP.okSt SP.trA2) ⟨12⟩ ⟨"walletA", []⟩
      "bob" (SP.uatom 0) "zero" .manual = .error .invalidPaymentAmount ∧
    SP.isOk SP.trC1 = true := by
  have h := claim_C4_amended_only_direct_rejects_zero
  exact ⟨h.1 (SP.okSt SP.trA2) ⟨12⟩ ⟨"walletA", []⟩ "bob" (SP.uatom 0)
    "zero" .manual "alice" ⟨"walletB", "bob", "Bob", Option.none, 11, 11⟩
    (by decide) (by decide) (by decide) rfl, h.2.1⟩

/-- C5 (counterexample): after `Reject` on a Manual-proof record the payee
cannot submit proof again — the resubmission fails with
`PaymentAlreadyCompleted` (the record is in the terminal `Rejected`
status), refuting "leaves the record resubmittable". -/
theorem claim_C5_counterexample_reject_not_resubmittable :
    SP.isOk SP.trB3 = true ∧ SP.isOk SP.trB4 = true ∧
    SP.isOk SP.trB5 = true ∧ SP.okMsgs SP.trB5 = [] ∧
    SP.trB6 = .error .paymentAlreadyCompleted := by
  decide

/-- C5 (amended): a successful `Reject` issues no transfer and moves the
record to the terminal `Rejected` status; every subsequent `SubmitProof` on
that record fails (the payee's balance claim survives: no bank message is
emitted). -/
theorem claim_C5_amended_reject_is_terminal :
    ∀ (s s' : SP.St) (env : SP.Env) (info : SP.Info) (pid : Nat)
      (out : List SP.CosmosMsg),
      SP.execute_reject_payment s env info pid = .ok (s', out) →
      out = [] ∧
      (findKV s'.payments pid).map SP.Payment.status =
        some SP.PaymentStatus.rejected ∧
      ∀ (env2 : SP.Env) (info2 : SP.Info) (pd : String), ∃ e,
        SP.execute_submit_proof s' env2 info2 pid pd = .error e := by
  intro s s' env info pid out h
  unfold SP.execute_reject_payment at h
  split at h
  · cases h
  split at h
  · cases h
  rename_i pay hf
  split at h
  · cases h
  split at h
  · cases h
  simp only [Except.ok.injEq, Prod.mk.injEq] at h
  obtain ⟨rfl, rfl⟩ := h
  refine ⟨rfl, by rw [findKV_saveKV_self]; rfl, ?_⟩
  intro env2 info2 pd
  exact SP.submit_proof_fails_nonpending (findKV_saveKV_self _ _ _)
    (by intro hc; cases hc)

/-- C5 (witness): the amended theorem applied to the concrete rejected
record of trace B. -/
theorem claim_C5_amended_witness :
    SP.isOk (SP.execute_submit_proof (SP.okSt SP.trB5) ⟨15⟩
      ⟨"walletB", []⟩ 1 "photo-hash-2") = false ∧
    (findKV (SP.okSt SP.trB5).payments 1).map SP.Payment.status =
      some SP.PaymentStatus.rejected := by
  have h := claim_C5_amended_reject_is_terminal (SP.okSt SP.trB4)
    (SP.okSt SP.trB5) ⟨14⟩ ⟨"walletA", []⟩ 1 [] (by decide)
  refine ⟨?_, h.2.1⟩
  obtain ⟨e, he⟩ := h.2.2 ⟨15⟩ ⟨"walletB", []⟩ "photo-hash-2"
  rw [he]
  rfl

/-- C6 (counterexample): attaching more funds than the declared amount is
accepted by both escrowing creation entry points — the calls succeed, so
"attached funds differ from the declared amount" is not rejected in the
greater-than direction. -/
theorem claim_C6_counterexample_over_attachment_accepted :
    SP.isOk SP.trD1 = true ∧ SP.isOk SP.trD2 = true := by
  decide

/-- C6 (amended): the escrowing creation entry points reject only
under-attachment — attached funds of the declared denomination strictly
below the declared amount yield `InsufficientFunds`; equal or greater
attachments are accepted. -/
theorem claim_C6_amended_only_under_attachment_rejected :
    (∀ (s : SP.St) (env : SP.Env) (info : SP.Info) (t : String)
      (a : SP.Coin) (d : String) (pt : SP.ProofType) (fu : String)
      (rec : SP.User),
      findKV s.usersByWallet info.sender = some fu → fu ≠ t →
      findKV s.usersByUsername t = some rec → a.amount ≠ 0 →
      SP.sentAmount info.funds a.denom < a.amount →
      SP.execute_send_direct_payment s env info t a d pt =
        .error .insufficientFunds) ∧
    (∀ (s : SP.St) (env : SP.Env) (info : SP.Info) (t : String)
      (a : SP.Coin) (d : String) (pt : SP.ProofType) (fu : String),
      findKV s.usersByWallet info.sender = some fu → fu ≠ t →
      (findKV s.usersByUsername t).isSome = true →
      SP.sentAmount info.funds a.denom < a.amount →
      SP.execute_create_help_request s env info t a d pt =
        .error .insufficientFunds) ∧
    SP.isOk SP.trD1 = true ∧ SP.isOk SP.trD2 = true := by
  refine ⟨?_, ?_, by decide, by decide⟩
  · intro s env info t a d pt fu rec hw hne hrec ha hlt
    simp [SP.execute_send_direct_payment, SP.get_username_from_wallet,
      hw, hne, hrec, ha, hlt]
  · intro s env info t a d pt fu hw hne hsome hlt
    obtain ⟨rec, hrec⟩ := Option.isSome_iff_exists.mp hsome
    simp [SP.execute_create_help_request, SP.get_username_from_wallet,
      hw, hne, hrec, hlt]

/-- C6 (witness): the amended theorem applied to concrete under-attached
creations in the two-user state. -/
theorem claim_C6_amended_witness :
    SP.execute_send_direct_payment (SP.okSt SP.trA2) ⟨12⟩
      ⟨"walletA", [SP.uatom 30]⟩ "bob" (SP.uatom 50) "under" .manual =
      .error .insufficientFunds ∧
    SP.execute_create_help_request (SP.okSt SP.trA2) ⟨12⟩
      ⟨"walletA", [SP.uatom 30]⟩ "bob" (SP.uatom 50) "under" .manual =
      .error .insufficientFunds := by
  have h := claim_C6_amended_only_under_attachment_rejected
  exact ⟨h.1 (SP.okSt SP.trA2) ⟨12⟩ ⟨"walletA", [SP.uatom 30]⟩ "bob"
      (SP.uatom 50) "under" .manual "alice"
      ⟨"walletB", "bob", "Bob", Option.none, 11, 11⟩
      (by decide) (by decide) (by decide) (by decide) (by decide),
    h.2.1 (SP.okSt SP.trA2) ⟨12⟩ ⟨"walletA", [SP.uatom 30]⟩ "bob"
      (SP.uatom 50) "under" .manual "alice"
      (by decide) (by decide) (by decide) (by decide)⟩

/-- C7: a successful direct payment with proof policy `None` stores the new
record with status `Completed` and, in the same call, returns exactly one
bank transfer of the declared coin to the recipient's registered wallet;
the result is a single `Except.ok` carrying both the storage write and the
message, so the two take effect together or (on error) not at all. -/
theorem claim_C7_direct_none_completes_and_pays :
    ∀ (s s' : SP.St) (env : SP.Env) (info : SP.Info) (t : String)
      (a : SP.Coin) (d : String) (out : List SP.CosmosMsg),
      SP.execute_send_direct_payment s env info t a d .none =
        .ok (s', out) →
      ∃ rec : SP.User,
        findKV s.usersByUsername t = some rec ∧
        out = [SP.CosmosMsg.bankSend rec.wallet_address [a]] ∧
        (findKV s'.payments s.state.next_payment_id).map
          SP.Payment.status = some SP.PaymentStatus.completed ∧
        s'.state.next_payment_id = s.state.next_payment_id + 1 := by
  intro s s' env info t a d out h
  unfold SP.execute_send_direct_payment at h
  split at h
  · cases h
  split at h
  · cases h
  split at h
  · cases h
  rename_i rec hrec
  split at h
  · cases h
  split at h
  · cases h
  simp only [Except.ok.injEq, Prod.mk.injEq] at h
  obtain ⟨rfl, rfl⟩ := h
  exact ⟨rec, hrec, rfl, by rw [findKV_saveKV_self]; rfl, rfl⟩

/-- C7 (witness): the theorem applied to the concrete `None`-policy direct
payment `trF3`. -/
theorem claim_C7_witness :
    SP.okMsgs SP.trF3 = [SP.CosmosMsg.bankSend "walletB" [SP.uatom 100]] ∧
    (findKV (SP.okSt SP.trF3).payments 1).map SP.Payment.status =
      some SP.PaymentStatus.completed := by
  obtain ⟨rec, h1, h2, h3, h4⟩ := claim_C7_direct_none_completes_and_pays
    (SP.okSt SP.trA2) (SP.okSt SP.trF3) ⟨12⟩ ⟨"walletA", [SP.uatom 100]⟩
    "bob" (SP.uatom 100) "gift" (SP.okMsgs SP.trF3) (by decide)
  have hb : findKV (SP.okSt SP.trA2).usersByUsername "bob" =
      some ⟨"walletB", "bob", "Bob", Option.none, 11, 11⟩ := by decide
  have hrec : rec = ⟨"walletB", "bob", "Bob", Option.none, 11, 11⟩ :=
    Option.some.inj (h1.symm.trans hb)
  have hnext : (SP.okSt SP.trA2).state.next_payment_id = 1 := by decide
  constructor
  · rw [h2, hrec]
  · rw [hnext] at h3
    exact h3

/-- C9: at every reachable state of the social-payment contract the two
user registries are mutually consistent — `USERS_BY_WALLET` maps a wallet
to a username exactly when `USERS_BY_USERNAME` maps that username to a user
record whose `wallet_address` is that wallet — and no wallet is bound to
two usernames, nor a username to two wallets. -/
theorem claim_C9_registry_consistency :
    ∀ s : SP.St, SP.Reachable s →
      SP.RegConsistent s ∧
      (∀ (u1 u2 : String) (usr1 usr2 : SP.User),
        findKV s.usersByUsername u1 = some usr1 →
        findKV s.usersByUsername u2 = some usr2 →
        usr1.wallet_address = usr2.wallet_address → u1 = u2) ∧
      (∀ (w1 w2 u : String),
        findKV s.usersByWallet w1 = some u →
        findKV s.usersByWallet w2 = some u → w1 = w2) := by
  intro s hr
  have hR := (SP.reachable_inv hr).2
  refine ⟨hR, ?_, ?_⟩
  · intro u1 u2 usr1 usr2 h1 h2 heq
    have hw1 : findKV s.usersByWallet usr1.wallet_address = some u1 :=
      (hR usr1.wallet_address u1).mpr ⟨usr1, h1, rfl⟩
    have hw2 : findKV s.usersByWallet usr1.wallet_address = some u2 :=
      (hR usr1.wallet_address u2).mpr ⟨usr2, h2, heq.symm⟩
    exact Option.some.inj (hw1.symm.trans hw2)
  · intro w1 w2 u h1 h2
    obtain ⟨usr1, hb1, ha1⟩ := (hR w1 u).mp h1
    obtain ⟨usr2, hb2, ha2⟩ := (hR w2 u).mp h2
    have : usr1 = usr2 := Option.some.inj (hb1.symm.trans hb2)
    rw [← ha1, ← ha2, this]

/-- C9 (witness): the theorem applied to the reachable two-user state,
instantiated at alice's wallet. -/
theorem claim_C9_witness :
    findKV (SP.okSt SP.trA2).usersByWallet "walletA" = some "alice" := by
  have h := claim_C9_registry_consistency (SP.okSt SP.trA2)
    SP.reachable_trA2
  exact (h.1 "walletA" "alice").mpr
    ⟨⟨"walletA", "alice", "Alice", Option.none, 10, 10⟩, by decide, rfl⟩

/-- C10: `ApprovePayment` never inspects the funds attached to the call —
its result is identical for any two attachments by the same sender — and a
successful approval of a `PaymentRequest` record (which escrowed nothing at
creation) returns a bank transfer of the full record amount to the payee's
registered wallet, drawn from the contract's own balance. -/
theorem claim_C10_approve_ignores_funds_pays_full :
    (∀ (s : SP.St) (env : SP.Env) (sender : String)
      (f1 f2 : List SP.Coin) (pid : Nat),
      SP.execute_approve_payment s env ⟨sender, f1⟩ pid =
        SP.execute_approve_payment s env ⟨sender, f2⟩ pid) ∧
    (∀ (s s' : SP.St) (env : SP.Env) (info : SP.Info) (pid : Nat)
      (out : List SP.CosmosMsg) (pay : SP.Payment),
      findKV s.payments pid = some pay →
      pay.payment_type = .paymentRequest →
      SP.execute_approve_payment s env info pid = .ok (s', out) →
      ∃ rec : SP.User,
        findKV s.usersByUsername pay.to_username = some rec ∧
        out = [SP.CosmosMsg.bankSend rec.wallet_address [pay.amount]]) := by
  constructor
  · intro s env sender f1 f2 pid
    rfl
  · intro s s' env info pid out pay hf _ h
    unfold SP.execute_approve_payment at h
    split at h
    · cases h
    split at h
    · cases h
    rename_i pay0 hf0
    have hpp : pay0 = pay := Option.some.inj (hf0.symm.trans hf)
    subst hpp
    split at h
    · cases h
    split at h
    · cases h
    split at h
    · cases h
    split at h
    · cases h
    rename_i rec hrec
    simp only [Except.ok.injEq, Prod.mk.injEq] at h
    obtain ⟨rfl, rfl⟩ := h
    exact ⟨rec, hrec, rfl⟩

/-- C10 (witness): the theorem applied to the concrete approved
`PaymentRequest` of trace E — identical results with and without attached
funds, and the full 30 uatom paid to bob's wallet. -/
theorem claim_C10_witness :
    SP.execute_approve_payment (SP.okSt SP.trE3) ⟨13⟩ ⟨"walletB", []⟩ 1 =
      SP.execute_approve_payment (SP.okSt SP.trE3) ⟨13⟩
        ⟨"walletB", [SP.uatom 999]⟩ 1 ∧
    SP.okMsgs SP.trE4 = [SP.CosmosMsg.bankSend "walletB" [SP.uatom 30]] := by
  have h := claim_C10_approve_ignores_funds_pays_full
  refine ⟨h.1 (SP.okSt SP.trE3) ⟨13⟩ "walletB" [] [SP.uatom 999] 1, ?_⟩
  obtain ⟨rec, h1, h2⟩ := h.2 (SP.okSt SP.trE3) (SP.okSt SP.trE4) ⟨13⟩
    ⟨"walletB", []⟩ 1 (SP.okMsgs SP.trE4)
    ⟨1, "alice", "bob", SP.uatom 30, "owed", .paymentRequest, .none,
      Option.none, .pending, 12, 12⟩
    (by decide) rfl (by decide)
  have hb : findKV (SP.okSt SP.trE3).usersByUsername "bob" =
      some ⟨"walletB", "bob", "Bob", Option.none, 11, 11⟩ := by decide
  have hrec : rec = ⟨"walletB", "bob", "Bob", Option.none, 11, 11⟩ :=
    Option.some.inj (h1.symm.trans hb)
  rw [h2, hrec]

namespace CW

theorem pendingSum_cons (k : String) (p : Payment)
    (t : List (String × Payment)) (r : String) :
    pendingSum ((k, p) :: t) r = contribution p r + pendingSum t r := by
  simp [pendingSum]

theorem pendingSum_saveKV_found {m : List (String × Payment)} {k : String}
    {p : Payment} (q : Payment) (r : String) (hf : findKV m k = some p) :
    pendingSum (saveKV m k q) r + contribution p r =
      pendingSum m r + contribution q r := by
  induction m with
  | nil => simp [findKV] at hf
  | cons hd t ih =>
    obtain ⟨k0, p0⟩ := hd
    by_cases hk : k = k0
    · subst hk
      rw [show saveKV ((k, p0) :: t) k q = (k, q) :: t by simp [saveKV]]
      rw [pendingSum_cons, pendingSum_cons]
      have hp : p0 = p := by simpa [findKV] using hf
      rw [hp]; omega
    · rw [show saveKV ((k0, p0) :: t) k q = (k0, p0) :: saveKV t k q by
        simp [saveKV, hk]]
      rw [pendingSum_cons, pendingSum_cons]
      have hf' : findKV t k = some p := by simpa [findKV, hk] using hf
      have := ih hf'
      omega

theorem pendingSum_saveKV_new {m : List (String × Payment)} {k : String}
    (q : Payment) (r : String) (hf : findKV m k = Option.none) :
    pendingSum (saveKV m k q) r = pendingSum m r + contribution q r := by
  induction m with
  | nil =>
    rw [show saveKV ([] : List (String × Payment)) k q = [(k, q)] from rfl,
      pendingSum_cons]
    simp [pendingSum]
  | cons hd t ih =>
    obtain ⟨k0, p0⟩ := hd
    by_cases hk : k = k0
    · subst hk; simp [findKV] at hf
    · rw [show saveKV ((k0, p0) :: t) k q = (k0, p0) :: saveKV t k q by
        simp [saveKV, hk]]
      rw [pendingSum_cons, pendingSum_cons]
      have hf' : findKV t k = Option.none := by simpa [findKV, hk] using hf
      rw [ih hf']; omega

theorem contribution_le_pendingSum {m : List (String × Payment)}
    {k : String} {p : Payment} (r : String) (hf : findKV m k = some p) :
    contribution p r ≤ pendingSum m r := by
  induction m with
  | nil => simp [findKV] at hf
  | cons hd t ih =>
    obtain ⟨k0, p0⟩ := hd
    rw [pendingSum_cons]
    by_cases hk : k = k0
    · subst hk
      have hp : p0 = p := by simpa [findKV] using hf
      rw [hp]; omega
    · have hf' : findKV t k = some p := by simpa [findKV, hk] using hf
      have := ih hf'
      omega

theorem register_user_pinv {s s' : St} {env : Env} {info : Info}
    {u : String} {out : List SP.CosmosMsg}
    (h : execute_register_user s env info u = .ok (s', out))
    (hI : PendingInv s) : PendingInv s' := by
  unfold execute_register_user at h
  split at h
  · cases h
  split at h
  · cases h
  split at h
  · cases h
  simp only [Except.ok.injEq, Prod.mk.injEq] at h
  obtain ⟨rfl, rfl⟩ := h
  exact hI

theorem add_authorized_pinv {api : String → Bool} {s s' : St} {info : Info}
    {a : String} {out : List SP.CosmosMsg}
    (h : execute_add_authorized_address api s info a = .ok (s', out))
    (hI : PendingInv s) : PendingInv s' := by
  unfold execute_add_authorized_address at h
  split at h
  · cases h
  split at h
  · cases h
  split at h
  · cases h
  split at h
  · cases h
  simp only [Except.ok.injEq, Prod.mk.injEq] at h
  obtain ⟨rfl, rfl⟩ := h
  exact hI

theorem remove_authorized_pinv {s s' : St} {info : Info}
    {a : String} {out : List SP.CosmosMsg}
    (h : execute_remove_authorized_address s info a = .ok (s', out))
    (hI : PendingInv s) : PendingInv s' := by
  unfold execute_remove_authorized_address at h
  split at h
  · cases h
  split at h
  · cases h
  simp only [Except.ok.injEq, Prod.mk.injEq] at h
  obtain ⟨rfl, rfl⟩ := h
  exact hI

theorem submit_proof_pinv {s s' : St} {info : Info}
    {pid pf : String} {out : List SP.CosmosMsg}
    (h : execute_submit_proof s info pid pf = .ok (s', out))
    (hI : PendingInv s) : PendingInv s' := by
  unfold execute_submit_proof at h
  split at h
  · cases h
  rename_i pay hf
  split at h
  · cases h
  split at h
  · cases h
  split at h
  · cases h
  split at h
  · cases h
  simp only [Except.ok.injEq, Prod.mk.injEq] at h
  obtain ⟨rfl, rfl⟩ := h
  intro r0
  have hsum := pendingSum_saveKV_found
    { pay with proof_data := some pf } r0 hf
  have hceq : contribution { pay with proof_data := some pf } r0 =
      contribution pay r0 := rfl
  have := hI r0
  rw [hceq] at hsum
  show pendingSum (saveKV s.payments pid { pay with proof_data := some pf })
    r0 ≤ pendingBal s r0
  omega

theorem contribution_le_amount (pay : Payment) (r0 : String) :
    contribution pay r0 ≤ pay.amount := by
  unfold contribution
  split <;> omega

theorem save_fresh_pinv {s : St} {pid : String} (pay : Payment)
    (hI : PendingInv s) (r0 : String) :
    pendingSum (saveKV s.payments pid pay) r0 ≤
      (findKV (saveKV s.pendingBalances pay.recipient
        ((findKV s.pendingBalances pay.recipient).getD 0 + pay.amount))
        r0).getD 0 := by
  have hle : pendingSum (saveKV s.payments pid pay) r0 ≤
      pendingSum s.payments r0 + contribution pay r0 := by
    cases hfind : findKV s.payments pid with
    | none => rw [pendingSum_saveKV_new _ _ hfind]
    | some pold =>
      have h2 := pendingSum_saveKV_found (p := pold) pay r0 hfind
      omega
  have hbase := hI r0
  unfold pendingBal at hbase
  by_cases hr0 : r0 = pay.recipient
  · subst hr0
    rw [findKV_saveKV_self, Option.getD_some]
    have hcon := contribution_le_amount pay pay.recipient
    omega
  · have hcon : contribution pay r0 = 0 := by
      unfold contribution
      rw [if_neg]
      rintro ⟨-, hre⟩
      exact hr0 hre.symm
    rw [findKV_saveKV_ne _ _ hr0]
    omega

theorem create_payment_pinv {api : String → Bool} {s s' : St} {env : Env}
    {info : Info} {r : String} {a : Nat} {tok : Option String}
    {pt : Option ProofType} {d : Option String} {rp : Bool}
    {out : List SP.CosmosMsg}
    (h : execute_create_payment api s env info r a tok pt d rp =
      .ok (s', out))
    (hI : PendingInv s) : PendingInv s' := by
  unfold execute_create_payment at h
  split at h
  · cases h
  split at h
  · cases h
  split at h
  · cases h
  split at h
  · cases h
  simp only [Except.ok.injEq, Prod.mk.injEq] at h
  obtain ⟨rfl, rfl⟩ := h
  intro r0
  exact save_fresh_pinv _ hI r0

theorem save_settle_pinv {s : St} {pid : String} {pay : Payment}
    (q : Payment) (hf : findKV s.payments pid = some pay)
    (hpend : pay.status = .pending)
    (hq : ∀ r1, contribution q r1 = 0)
    (hI : PendingInv s) (r0 : String) :
    pendingSum (saveKV s.payments pid q) r0 ≤
      (findKV (saveKV s.pendingBalances pay.recipient
        ((findKV s.pendingBalances pay.recipient).getD 0 - pay.amount))
        r0).getD 0 := by
  have hsum := pendingSum_saveKV_found q r0 hf
  rw [hq r0] at hsum
  have hbase := hI r0
  unfold pendingBal at hbase
  by_cases hr0 : r0 = pay.recipient
  · subst hr0
    rw [findKV_saveKV_self, Option.getD_some]
    have hc : contribution pay pay.recipient = pay.amount := by
      unfold contribution
      rw [if_pos ⟨hpend, rfl⟩]
    have hcle := contribution_le_pendingSum pay.recipient hf
    rw [hc] at hsum hcle
    omega
  · have hc0 : contribution pay r0 = 0 := by
      unfold contribution
      rw [if_neg]
      rintro ⟨-, hre⟩
      exact hr0 hre.symm
    rw [hc0] at hsum
    rw [findKV_saveKV_ne _ _ hr0]
    omega

theorem save_nonpending_pinv {s : St} {pid : String} {pay : Payment}
    (q : Payment) (hf : findKV s.payments pid = some pay)
    (hq : ∀ r1, contribution q r1 = 0)
    (hI : PendingInv s) (r0 : String) :
    pendingSum (saveKV s.payments pid q) r0 ≤ pendingBal s r0 := by
  have hsum := pendingSum_saveKV_found q r0 hf
  rw [hq r0] at hsum
  have hbase := hI r0
  omega

theorem complete_payment_pinv {s s' : St} {env : Env} {info : Info}
    {pid : String} {out : List SP.CosmosMsg}
    (h : execute_complete_payment s env info pid = .ok (s', out))
    (hI : PendingInv s) : PendingInv s' := by
  unfold execute_complete_payment at h
  split at h
  · cases h
  rename_i pay hf
  split at h
  · cases h
  rename_i hst
  split at h
  · cases h
  split at h
  · cases h
  split at h
  · cases h
  simp only [Except.ok.injEq, Prod.mk.injEq] at h
  obtain ⟨rfl, rfl⟩ := h
  intro r0
  exact save_settle_pinv _ hf (not_not.mp hst)
    (fun r1 => by
      unfold contribution
      rw [if_neg]
      rintro ⟨hc, -⟩
      cases hc)
    hI r0

theorem cancel_payment_pinv {s s' : St} {env : Env} {info : Info}
    {pid : String} {out : List SP.CosmosMsg}
    (h : execute_cancel_payment s env info pid = .ok (s', out))
    (hI : PendingInv s) : PendingInv s' := by
  unfold execute_cancel_payment at h
  split at h
  · cases h
  rename_i pay hf
  split at h
  · cases h
  rename_i hst
  split at h
  · cases h
  simp only [Except.ok.injEq, Prod.mk.injEq] at h
  obtain ⟨rfl, rfl⟩ := h
  intro r0
  exact save_settle_pinv _ hf (not_not.mp hst)
    (fun r1 => by
      unfold contribution
      rw [if_neg]
      rintro ⟨hc, -⟩
      cases hc)
    hI r0

theorem dispute_payment_pinv {s s' : St} {env : Env} {info : Info}
    {pid reason : String} {out : List SP.CosmosMsg}
    (h : execute_dispute_payment s env info pid reason = .ok (s', out))
    (hI : PendingInv s) : PendingInv s' := by
  unfold execute_dispute_payment at h
  split at h
  · cases h
  rename_i pay hf
  split at h
  · cases h
  split at h
  · cases h
  split at h
  · cases h
  simp only [Except.ok.injEq, Prod.mk.injEq] at h
  obtain ⟨rfl, rfl⟩ := h
  intro r0
  exact save_nonpending_pinv _ hf
    (fun r1 => by
      unfold contribution
      rw [if_neg]
      rintro ⟨hc, -⟩
      cases hc)
    hI r0

theorem execute_pinv {api : String → Bool} {s s' : St} {env : Env}
    {info : Info} {msg : ExecuteMsg} {out : List SP.CosmosMsg}
    (h : execute api s env info msg = .ok (s', out))
    (hI : PendingInv s) : PendingInv s' := by
  cases msg with
  | registerUser u => exact register_user_pinv h hI
  | addAuthorizedAddress a => exact add_authorized_pinv h hI
  | removeAuthorizedAddress a =>
    exact @remove_authorized_pinv s s' info a out h hI
  | createPayment r a t pt d rp => exact create_payment_pinv h hI
  | submitProof i p => exact @submit_proof_pinv s s' info i p out h hI
  | completePayment i => exact complete_payment_pinv h hI
  | disputePayment i r => exact @dispute_payment_pinv s s' env info i r out h hI
  | cancelPayment i => exact @cancel_payment_pinv s s' env info i out h hI
  | sendIbcPayment => cases h

theorem reachable_pinv {api : String → Bool} {s : St}
    (hr : Reachable api s) : PendingInv s := by
  induction hr with
  | init admin sender => intro r0; exact Nat.zero_le _
  | step _ hstep ih => exact execute_pinv hstep ih

end CW

/-- C8 (counterexample): the claimed equality fails — `DisputePayment`
moves a payment out of `Pending` without releasing its pending balance, so
after a dispute the stored pending balance for the recipient (40) differs
from the sum of amounts of `Pending` payments to that recipient (0). -/
theorem claim_C8_counterexample_dispute_breaks_equality :
    CW.isOk CW.cw1 = true ∧ CW.isOk CW.cw2 = true ∧
    CW.pendingBal (CW.okSt CW.cw2) "osmoB" = 40 ∧
    CW.pendingSum (CW.okSt CW.cw2).payments "osmoB" = 0 := by
  decide

/-- C8 (amended): at every reachable state of the contracts-cosmwasm
variant the stored pending balance of an account dominates (is at least)
the sum of the amounts of all `Pending` payments whose recipient is that
account — equality can fail after `DisputePayment` or an id-collision
overwrite — and consequently the unchecked `Uint128` subtractions of
`CompletePayment` and `CancelPayment`, which subtract the amount of a
payment that is still `Pending`, never underflow: the subtracted amount is
at most the stored balance. -/
theorem claim_C8_amended_pending_balance_dominates :
    (∀ (api : String → Bool) (s : CW.St), CW.Reachable api s →
      CW.PendingInv s) ∧
    (∀ (api : String → Bool) (s : CW.St) (pid : String)
      (pay : CW.Payment), CW.Reachable api s →
      findKV s.payments pid = some pay →
      pay.status = .pending →
      pay.amount ≤ CW.pendingBal s pay.recipient) := by
  constructor
  · intro api s hr
    exact CW.reachable_pinv hr
  · intro api s pid pay hr hf hst
    have hs := CW.reachable_pinv hr pay.recipient
    have hc := CW.contribution_le_pendingSum pay.recipient hf
    have hceq : CW.contribution pay pay.recipient = pay.amount := by
      unfold CW.contribution
      rw [if_pos ⟨hst, rfl⟩]
    rw [hceq] at hc
    omega

/-- C8 (witness): the amended theorem applied to the concrete disputed
trace — the inequality holds at the post-dispute state, and the payment of
trace `cw1` satisfies the no-underflow bound 40 ≤ 40. -/
theorem claim_C8_amended_witness :
    CW.pendingSum (CW.okSt CW.cw2).payments "osmoB" ≤
      CW.pendingBal (CW.okSt CW.cw2) "osmoB" ∧
    (40 : Nat) ≤ CW.pendingBal (CW.okSt CW.cw1) "osmoB" := by
  have h1 : CW.execute CW.apiAll CW.cw0 ⟨100⟩ ⟨"osmoA"⟩
      (.createPayment "osmoB" 40 Option.none Option.none Option.none
        false) = .ok (CW.okSt CW.cw1, []) := by decide
  have h2 : CW.execute CW.apiAll (CW.okSt CW.cw1) ⟨100⟩ ⟨"osmoA"⟩
      (.disputePayment "osmoA:osmoB:40:100" "goods not delivered") =
      .ok (CW.okSt CW.cw2, []) := by decide
  have hr1 : CW.Reachable CW.apiAll (CW.okSt CW.cw1) :=
    .step (.init Option.none "deployer") h1
  have hr2 : CW.Reachable CW.apiAll (CW.okSt CW.cw2) := .step hr1 h2
  have h := claim_C8_amended_pending_balance_dominates
  refine ⟨h.1 CW.apiAll _ hr2 "osmoB", ?_⟩
  exact h.2 CW.apiAll (CW.okSt CW.cw1) "osmoA:osmoB:40:100"
    ⟨"osmoA:osmoB:40:100", "osmoA", "osmoB", 40, Option.none, .pending,
      Option.none, Option.none, Option.none, 100, Option.none, false⟩
    hr1 (by decide) rfl
